import Mathlib

/-!
Shallow embedding of the IntelliHire code-execution engine
(src/finalcorefeature/code-execution.js).

The effectful parts of the JavaScript (filesystem writes, process
execution via `exec`, the wall clock, `unlinkSync`) are modelled by an
explicit environment `Env` that supplies the outcome of every external
interaction of one invocation: whether the `writeFileSync` call throws,
the outcome of the compile-phase and run-phase processes, the duration
of each phase, and whether each `unlinkSync` call throws.  `executeCode`
then becomes a total function from the request and the environment to an
`Outcome` recording the returned result, the files written, the commands
handed to `exec`, the unlink attempts, and the files present on disk at
return (starting from an empty per-invocation view of the directory).
-/

/-- JavaScript whitespace class used by the regexes and by trim
(ASCII part of \s). -/
def isJsSpace (c : Char) : Bool :=
  c = ' ' || c = '\t' || c = '\n' || c = '\r' || c = '\x0b' || c = '\x0c'

/-- JavaScript word-character class \w. -/
def isWordChar (c : Char) : Bool :=
  c.isAlpha || c.isDigit || c = '_'

/-- String.prototype.trim: strip whitespace from both ends. -/
def jsTrim (s : String) : String :=
  String.mk (((s.data.dropWhile isJsSpace).reverse.dropWhile isJsSpace).reverse)

/-- The JavaScript || on strings: an empty string is falsy, so
a || b picks b exactly when a is empty (used for stderr || error.message). -/
def jsOr (a b : String) : String :=
  if a = "" then b else a

/-- Outcome of one child process as seen by the callback of exec:
either a clean exit (error null) with captured streams, or an error
carrying the killed flag, signal and message of the error object. -/
inductive ProcOutcome where
  | ok (stdout stderr : String)
  | err (killed : Bool) (signal : String) (message : String) (stdout stderr : String)
deriving DecidableEq

/-- Environment of one executeCode invocation: everything the outside
world decides.  unlinkFails says which unlinkSync calls throw;
harnessThrow injects an unexpected exception into one test case of the
harness (the try/catch of runTestCases). -/
structure Env where
  executionId : String
  writeFails : Option String
  compile : ProcOutcome
  run : ProcOutcome
  tMaterialize : Nat
  tCompile : Nat
  tRun : Nat
  unlinkFails : String → Bool
  harnessThrow : Option String

/-- The result object executeCode resolves with. -/
structure ExecResult where
  success : Bool
  output : Option String
  error : Option String
  executionTime : Nat
deriving DecidableEq

/-- Observable trace of one invocation: the returned result, the paths
passed to writeFileSync, the commands passed to exec, the paths whose
deletion was attempted, and the files on disk when the call returns
(relative to an empty initial directory view). -/
structure Outcome where
  result : ExecResult
  writes : List (String × String)
  execs : List String
  unlinks : List String
  fs : List String
deriving DecidableEq

def executionDir : String := "code-executions"

def pjoin (f : String) : String := executionDir ++ "/" ++ f

/-- cleanupFiles: try to unlink each path, swallowing failures; returns
the directory contents after the attempts. -/
def cleanupFiles (unlinkFails : String → Bool) (paths fs : List String) : List String :=
  paths.foldl (fun acc p => if unlinkFails p then acc else acc.filter (fun q => q != p)) fs

/-- Drop an exact literal from the head of the character stream. -/
def dropLit : List Char → List Char → Option (List Char)
  | [], cs => some cs
  | _ :: _, [] => none
  | l :: ls, c :: cs => if c = l then dropLit ls cs else none

/-- One-or-more whitespace. -/
def dropSpaces1 : List Char → Option (List Char)
  | [] => none
  | c :: cs => if isJsSpace c then some (cs.dropWhile isJsSpace) else none

/-- One-or-more word characters, returned as the captured group. -/
def takeWord1 : List Char → Option String
  | [] => none
  | c :: cs =>
    if isWordChar c then some (String.mk ((c :: cs).takeWhile isWordChar)) else none

/-- Try the java class-name pattern at this position. -/
def matchClassAt (cs : List Char) : Option String := do
  let cs1 ← dropLit ("public").data cs
  let cs2 ← dropSpaces1 cs1
  let cs3 ← dropLit ("class").data cs2
  let cs4 ← dropSpaces1 cs3
  takeWord1 cs4

/-- Leftmost match of the pattern. -/
def scanClass : List Char → Option String
  | [] => none
  | c :: cs =>
    match matchClassAt (c :: cs) with
    | some s => some s
    | none => scanClass cs

/-- code.match of the public-class regex: the captured class name of
the leftmost match, if any. -/
def javaClassName (code : String) : Option String :=
  scanClass code.data

/-- The run-phase exec callback: a timeout kill (killed with SIGTERM)
gets the dedicated message, any other error gets stderr or the error
message, a clean exit returns stdout. -/
def runPhaseResult (o : ProcOutcome) (elapsed : Nat) : ExecResult :=
  match o with
  | .ok stdout _ =>
    { success := true, output := some stdout, error := none, executionTime := elapsed }
  | .err killed signal message _ stderr =>
    if killed && (signal == "SIGTERM") then
      { success := false, output := none, error := some "Execution timed out",
        executionTime := elapsed }
    else
      { success := false, output := none, error := some (jsOr stderr message),
        executionTime := elapsed }

/-- The javascript and python branches: write the source under the
random id, then run the interpreter on it. -/
def runScript (cmdHead ext code : String) (env : Env) : Outcome :=
  let fp := pjoin (env.executionId ++ ext)
  match env.writeFails with
  | some m =>
    { result := { success := false, output := none, error := some m, executionTime := 0 },
      writes := [], execs := [], unlinks := [], fs := [] }
  | none =>
    let r := runPhaseResult env.run (env.tMaterialize + env.tRun)
    { result := r, writes := [(fp, code)], execs := [cmdHead ++ fp], unlinks := [fp],
      fs := cleanupFiles env.unlinkFails [fp] [fp] }

/-- The java branch: extract the public class name, write the source
under that name, compile with javac, then run; on compile failure only
the source is cleaned up and the run phase never happens. -/
def execJava (code : String) (env : Env) : Outcome :=
  match javaClassName code with
  | none =>
    { result := { success := false, output := none,
                  error := some "Could not find a public class in your Java code",
                  executionTime := 0 },
      writes := [], execs := [], unlinks := [], fs := [] }
  | some cn =>
    let fp := pjoin (cn ++ ".java")
    match env.writeFails with
    | some m =>
      { result := { success := false, output := none, error := some m, executionTime := 0 },
        writes := [], execs := [], unlinks := [], fs := [] }
    | none =>
      let cc := "javac -d " ++ executionDir ++ " " ++ fp
      match env.compile with
      | .err _ _ message _ stderr =>
        { result := { success := false, output := none,
                      error := some (jsOr stderr message), executionTime := 0 },
          writes := [(fp, code)], execs := [cc], unlinks := [fp],
          fs := cleanupFiles env.unlinkFails [fp] [fp] }
      | .ok _ _ =>
        let cp := pjoin (cn ++ ".class")
        let rc := "java -cp " ++ executionDir ++ " " ++ cn
        let r := runPhaseResult env.run (env.tMaterialize + env.tCompile + env.tRun)
        { result := r, writes := [(fp, code)], execs := [cc, rc], unlinks := [fp, cp],
          fs := cleanupFiles env.unlinkFails [fp, cp] [fp, cp] }

/-- The cpp branch: write the source under the random id, compile with
g++ into a binary named by the id, then run the binary. -/
def execCpp (code : String) (env : Env) : Outcome :=
  let fp := pjoin (env.executionId ++ ".cpp")
  let op := pjoin env.executionId
  match env.writeFails with
  | some m =>
    { result := { success := false, output := none, error := some m, executionTime := 0 },
      writes := [], execs := [], unlinks := [], fs := [] }
  | none =>
    let cc := "g++ " ++ fp ++ " -o " ++ op
    match env.compile with
    | .err _ _ message _ stderr =>
      { result := { success := false, output := none,
                    error := some (jsOr stderr message), executionTime := 0 },
        writes := [(fp, code)], execs := [cc], unlinks := [fp],
        fs := cleanupFiles env.unlinkFails [fp] [fp] }
    | .ok _ _ =>
      let r := runPhaseResult env.run (env.tMaterialize + env.tCompile + env.tRun)
      { result := r, writes := [(fp, code)], execs := [cc, op], unlinks := [fp, op],
        fs := cleanupFiles env.unlinkFails [fp, op] [fp, op] }

/-- executeCode: dispatch on the language tag; unknown tags fail with
the descriptive message and touch nothing. -/
def executeCode (code lang : String) (env : Env) : Outcome :=
  if lang = "javascript" then runScript "node " ".js" code env
  else if lang = "python" then runScript "python " ".py" code env
  else if lang = "java" then execJava code env
  else if lang = "cpp" then execCpp code env
  else
    { result := { success := false, output := none,
                  error := some ("Unsupported language: " ++ lang), executionTime := 0 },
      writes := [], execs := [], unlinks := [], fs := [] }

/-- JSON values that a test case's input or expected output can carry
(the subset the harness serializes). -/
inductive JsVal where
  | str (s : String)
  | num (n : Int)
  | bool (b : Bool)
deriving DecidableEq

/-- String(v): the JavaScript string coercion used on the expected
output before trimming. -/
def jsString : JsVal → String
  | .str s => s
  | .num n => toString n
  | .bool b => if b then "true" else "false"

/-- Escaping of one character inside a JSON string literal. -/
def jsonEscapeChar (c : Char) : List Char :=
  if c = '"' then [ '\\', '"' ]
  else if c = '\\' then [ '\\', '\\' ]
  else if c = '\n' then [ '\\', 'n' ]
  else if c = '\r' then [ '\\', 'r' ]
  else if c = '\t' then [ '\\', 't' ]
  else [c]

/-- JSON.stringify on the supported values. -/
def jsonStringify : JsVal → String
  | .str s => "\"" ++ String.mk (s.data.foldr (fun c acc => jsonEscapeChar c ++ acc) []) ++ "\""
  | .num n => toString n
  | .bool b => if b then "true" else "false"

/-- One test case of the harness. -/
structure TestCase where
  input : JsVal
  output : JsVal
deriving DecidableEq

/-- One entry of the sequence runTestCases returns; fields that a
branch of the source never sets are none. -/
structure TCResult where
  success : Bool
  output : Option String
  error : Option String
  executionTime : Option Nat
  testPassed : Option Bool
  expected : Option JsVal
  test : TestCase
deriving DecidableEq

/-- Try the entry-point pattern (a literal head such as
public static void main followed by an open parenthesis, then anything
up to a close parenthesis, optional whitespace, an open brace, anything
up to a close brace) at this position; on success return the rest of
the stream after the match. -/
def matchEntryAt (hd cs : List Char) : Option (List Char) := do
  let cs1 ← dropLit hd cs
  let cs2 := cs1.dropWhile (fun c => c != ')')
  match cs2 with
  | ')' :: cs3 =>
    let cs4 := cs3.dropWhile isJsSpace
    match cs4 with
    | '\x7b' :: cs5 =>
      let cs6 := cs5.dropWhile (fun c => c != '\x7d')
      match cs6 with
      | '\x7d' :: cs7 => some cs7
      | _ => none
    | _ => none
  | _ => none

/-- Leftmost match of the entry-point pattern: the characters before
the match and the characters after it. -/
def splitEntry (hd : List Char) : List Char → Option (List Char × List Char)
  | [] =>
    match matchEntryAt hd [] with
    | some r => some ([], r)
    | none => none
  | c :: cs =>
    match matchEntryAt hd (c :: cs) with
    | some r => some ([], r)
    | none =>
      match splitEntry hd cs with
      | some (p, r) => some (c :: p, r)
      | none => none

def javaEntryHead : List Char := ("public static void main(").data

def cppEntryHead : List Char := ("int main(").data

/-- code.replace of the java main-block regex: replace the first match
with a main that prints solution(arg); no match leaves code unchanged. -/
def javaRewrite (code arg : String) : String :=
  match splitEntry javaEntryHead code.data with
  | none => code
  | some (p, r) =>
    String.mk p ++
      "public static void main(String[] args) \x7b System.out.println(solution(" ++
      arg ++ ")); \x7d" ++ String.mk r

/-- code.replace of the cpp main-block regex. -/
def cppRewrite (code arg : String) : String :=
  match splitEntry cppEntryHead code.data with
  | none => code
  | some (p, r) =>
    String.mk p ++
      "int main() \x7b cout << solution(" ++ arg ++ ") << endl; return 0; \x7d" ++
      String.mk r

/-- The per-case code modification of runTestCases; none for a language
tag outside the four supported ones. -/
def rewriteFor (lang code : String) (inp : JsVal) : Option String :=
  if lang = "javascript" then
    some (code ++ "\n\nconsole.log(solution(" ++ jsonStringify inp ++ "));")
  else if lang = "python" then
    some (code ++ "\n\nprint(solution(" ++ jsonStringify inp ++ "))")
  else if lang = "java" then some (javaRewrite code (jsonStringify inp))
  else if lang = "cpp" then some (cppRewrite code (jsonStringify inp))
  else none

/-- Attach the comparison verdict and the original test case to an
execution result: on success compare the trimmed actual output to the
trimmed string form of the expected output; on failure leave testPassed
and expected unset. -/
def caseResult (r : ExecResult) (t : TestCase) : TCResult :=
  if r.success then
    { success := r.success, output := r.output, error := r.error,
      executionTime := some r.executionTime,
      testPassed := some (jsTrim (r.output.getD "") == jsTrim (jsString t.output)),
      expected := some t.output, test := t }
  else
    { success := r.success, output := r.output, error := r.error,
      executionTime := some r.executionTime,
      testPassed := none, expected := none, test := t }

/-- One iteration of the loop of runTestCases, the try/catch included:
an injected exception yields the catch-branch object, an unsupported
language yields the dedicated failure object, otherwise the modified
code is executed and the verdict attached. -/
def runCase (code lang : String) (env : Env) (t : TestCase) : TCResult :=
  match env.harnessThrow with
  | some m =>
    { success := false, output := none, error := some m, executionTime := none,
      testPassed := none, expected := none, test := t }
  | none =>
    match rewriteFor lang code t.input with
    | none =>
      { success := false, output := none,
        error := some ("Unsupported language for test cases: " ++ lang),
        executionTime := none, testPassed := none, expected := none, test := t }
    | some modified => caseResult (executeCode modified lang env).result t

/-- The loop of runTestCases, carrying the index of the case so each
case can get its own environment. -/
def runTestCasesAux (code lang : String) (envOf : Nat → Env) : Nat → List TestCase → List TCResult
  | _, [] => []
  | i, t :: ts => runCase code lang (envOf i) t :: runTestCasesAux code lang envOf (i + 1) ts

/-- runTestCases: one result per case, in order, never aborting early. -/
def runTestCases (code lang : String) (tcs : List TestCase) (envOf : Nat → Env) : List TCResult :=
  runTestCasesAux code lang envOf 0 tcs

def envW1 : Env :=
  { executionId := "w1", writeFails := none, compile := .ok "" "",
    run := .err true "SIGTERM" "killed" "" "", tMaterialize := 1, tCompile := 0,
    tRun := 5000, unlinkFails := fun _ => false, harnessThrow := none }

def envW6 : Env :=
  { executionId := "w6", writeFails := none, compile := .ok "" "",
    run := .ok "" "", tMaterialize := 0, tCompile := 0, tRun := 0,
    unlinkFails := fun _ => false, harnessThrow := none }

def envW5 : Env :=
  { executionId := "w5", writeFails := none,
    compile := .err false "" "exit 1" "" "Main.java:1: error: cannot find symbol",
    run := .ok "" "", tMaterialize := 0, tCompile := 4, tRun := 0,
    unlinkFails := fun _ => false, harnessThrow := none }

def codeA : String := "public class A \x7b\x7d"

def envCK : Env :=
  { executionId := "rid", writeFails := none,
    compile := .err true "SIGTERM" "Command failed" "" "javac diagnostics",
    run := .ok "" "", tMaterialize := 0, tCompile := 5000, tRun := 0,
    unlinkFails := fun _ => false, harnessThrow := none }

def envRT : Env :=
  { executionId := "w3", writeFails := none, compile := .ok "" "",
    run := .err true "SIGTERM" "killed" "" "", tMaterialize := 1, tCompile := 0,
    tRun := 5000, unlinkFails := fun _ => false, harnessThrow := none }

def envT : Env :=
  { executionId := "rid", writeFails := none, compile := .ok "" "",
    run := .ok "out" "", tMaterialize := 3, tCompile := 1000, tRun := 10,
    unlinkFails := fun _ => false, harnessThrow := none }

def envW9 : Env :=
  { executionId := "w9", writeFails := none, compile := .ok "" "",
    run := .ok "42\n" "", tMaterialize := 1, tCompile := 0, tRun := 2,
    unlinkFails := fun _ => false, harnessThrow := none }

def tcW9 : TestCase := { input := .num 1, output := .num 42 }

def nestedMainJava : String :=
  "public class A \x7b public static void main(String[] a) \x7b if (a != null) \x7b int x = 0; \x7d \x7d \x7d"

def noMainJava : String := "public class A \x7b int f() \x7b return 1; \x7d \x7d"

def envW10 : Env :=
  { executionId := "w10", writeFails := none, compile := .ok "" "",
    run := .ok "1\n" "", tMaterialize := 0, tCompile := 1, tRun := 1,
    unlinkFails := fun _ => false, harnessThrow := none }

lemma aux_runPhase_wf (o : ProcOutcome) (t : Nat) :
    ((runPhaseResult o t).output.isSome = (runPhaseResult o t).success)
    ∧ ((runPhaseResult o t).error.isSome = !(runPhaseResult o t).success) := by
  cases o with
  | ok a b => simp [runPhaseResult]
  | err k sg m a b =>
    by_cases h : (k && (sg == "SIGTERM")) = true
    · simp [runPhaseResult, h]
    · simp [runPhaseResult, h]

lemma aux_runScript_wf (ch ext code : String) (env : Env) :
    ((runScript ch ext code env).result.output.isSome = (runScript ch ext code env).result.success)
    ∧ ((runScript ch ext code env).result.error.isSome
        = !(runScript ch ext code env).result.success) := by
  unfold runScript
  cases h : env.writeFails with
  | some m => simp
  | none => simpa using aux_runPhase_wf env.run (env.tMaterialize + env.tRun)

lemma aux_execJava_wf (code : String) (env : Env) :
    ((execJava code env).result.output.isSome = (execJava code env).result.success)
    ∧ ((execJava code env).result.error.isSome = !(execJava code env).result.success) := by
  unfold execJava
  cases hc : javaClassName code with
  | none => simp
  | some cn =>
    cases hw : env.writeFails with
    | some m => simp
    | none =>
      cases hcmp : env.compile with
      | err k sg m so se => simp
      | ok so se =>
        simpa using aux_runPhase_wf env.run (env.tMaterialize + env.tCompile + env.tRun)

lemma aux_execCpp_wf (code : String) (env : Env) :
    ((execCpp code env).result.output.isSome = (execCpp code env).result.success)
    ∧ ((execCpp code env).result.error.isSome = !(execCpp code env).result.success) := by
  unfold execCpp
  cases hw : env.writeFails with
  | some m => simp
  | none =>
    cases hcmp : env.compile with
    | err k sg m so se => simp
    | ok so se =>
      simpa using aux_runPhase_wf env.run (env.tMaterialize + env.tCompile + env.tRun)

/-- C2: executeCode always returns a well-formed result: the output
field is populated exactly when success is true and the error field
exactly when success is false, for every code text, language tag and
environment (so in particular no branch throws past the boundary). -/
theorem executeCode_result_wellformed (code lang : String) (env : Env) :
    ((executeCode code lang env).result.output.isSome
      = (executeCode code lang env).result.success)
    ∧ ((executeCode code lang env).result.error.isSome
      = !(executeCode code lang env).result.success) := by
  unfold executeCode
  split_ifs with h1 h2 h3 h4
  · exact aux_runScript_wf "node " ".js" code env
  · exact aux_runScript_wf "python " ".py" code env
  · exact aux_execJava_wf code env
  · exact aux_execCpp_wf code env
  · simp

/-- C7: an unsupported language tag yields the descriptive failure with
zero executionTime, no file written, no process spawned, no unlink
attempted and nothing left on disk. -/
theorem executeCode_unsupported_language (code lang : String) (env : Env)
    (h1 : lang ≠ "javascript") (h2 : lang ≠ "python")
    (h3 : lang ≠ "java") (h4 : lang ≠ "cpp") :
    executeCode code lang env =
      { result := { success := false, output := none,
                    error := some ("Unsupported language: " ++ lang), executionTime := 0 },
        writes := [], execs := [], unlinks := [], fs := [] } := by
  simp [executeCode, h1, h2, h3, h4]

/-- C7 witness: the unsupported tag ruby at a concrete environment. -/
theorem executeCode_unsupported_language_witness :
    executeCode "print(1)" "ruby"
      { executionId := "w7", writeFails := none, compile := .ok "" "",
        run := .ok "" "", tMaterialize := 0, tCompile := 0, tRun := 0,
        unlinkFails := fun _ => false, harnessThrow := none } =
      { result := { success := false, output := none,
                    error := some ("Unsupported language: " ++ "ruby"), executionTime := 0 },
        writes := [], execs := [], unlinks := [], fs := [] } :=
  executeCode_unsupported_language "print(1)" "ruby" _
    (by decide) (by decide) (by decide) (by decide)

lemma aux_cleanup_sub (u : String → Bool) (h : ∀ p, u p = false) :
    ∀ (paths fs : List String), (∀ x ∈ fs, x ∈ paths) → cleanupFiles u paths fs = [] := by
  intro paths
  induction paths with
  | nil =>
    intro fs hsub
    cases fs with
    | nil => rfl
    | cons x xs => exact absurd (hsub x (by simp)) (by simp)
  | cons p ps ih =>
    intro fs hsub
    have hstep : cleanupFiles u (p :: ps) fs
        = cleanupFiles u ps (fs.filter (fun q => q != p)) := by
      simp [cleanupFiles, h p]
    rw [hstep]
    apply ih
    intro x hx
    rw [List.mem_filter] at hx
    have hmem := hsub x hx.1
    have hne : ¬ x = p := by simpa using hx.2
    simp at hmem
    tauto

lemma aux_runScript_indep (ch ext code : String) (env : Env) (f : String → Bool) :
    (runScript ch ext code { env with unlinkFails := f }).result
      = (runScript ch ext code env).result := by
  unfold runScript
  cases h : env.writeFails <;> simp [h]

lemma aux_execJava_indep (code : String) (env : Env) (f : String → Bool) :
    (execJava code { env with unlinkFails := f }).result = (execJava code env).result := by
  unfold execJava
  cases hc : javaClassName code with
  | none => simp
  | some cn =>
    cases hw : env.writeFails with
    | some m => simp [hw]
    | none =>
      cases hcmp : env.compile with
      | err k sg m so se => simp [hw, hcmp]
      | ok so se => simp [hw, hcmp]

lemma aux_execCpp_indep (code : String) (env : Env) (f : String → Bool) :
    (execCpp code { env with unlinkFails := f }).result = (execCpp code env).result := by
  unfold execCpp
  cases hw : env.writeFails with
  | some m => simp [hw]
  | none =>
    cases hcmp : env.compile with
    | err k sg m so se => simp [hw, hcmp]
    | ok so se => simp [hw, hcmp]

lemma aux_runScript_fs (ch ext code : String) (env : Env)
    (h : ∀ p, env.unlinkFails p = false) : (runScript ch ext code env).fs = [] := by
  unfold runScript
  cases hw : env.writeFails with
  | some m => rfl
  | none => simpa using aux_cleanup_sub env.unlinkFails h _ _ (by intro x hx; exact hx)

lemma aux_execJava_fs (code : String) (env : Env)
    (h : ∀ p, env.unlinkFails p = false) : (execJava code env).fs = [] := by
  unfold execJava
  cases hc : javaClassName code with
  | none => rfl
  | some cn =>
    cases hw : env.writeFails with
    | some m => rfl
    | none =>
      cases hcmp : env.compile with
      | err k sg m so se =>
        simpa using aux_cleanup_sub env.unlinkFails h _ _ (by intro x hx; exact hx)
      | ok so se =>
        simpa using aux_cleanup_sub env.unlinkFails h _ _ (by intro x hx; exact hx)

lemma aux_execCpp_fs (code : String) (env : Env)
    (h : ∀ p, env.unlinkFails p = false) : (execCpp code env).fs = [] := by
  unfold execCpp
  cases hw : env.writeFails with
  | some m => rfl
  | none =>
    cases hcmp : env.compile with
    | err k sg m so se =>
      simpa using aux_cleanup_sub env.unlinkFails h _ _ (by intro x hx; exact hx)
    | ok so se =>
      simpa using aux_cleanup_sub env.unlinkFails h _ _ (by intro x hx; exact hx)

/-- C1: cleanup is unconditional and invisible: whenever the attempted
deletions succeed, no file of the invocation's artifact set remains on
disk after executeCode returns, on every path (success, runtime
failure, timeout, compile failure, write exception); and the returned
result never depends on whether deletions fail, so a deletion failure
never surfaces as the request's error. -/
theorem executeCode_cleanup_unconditional (code lang : String) (env : Env) :
    ((∀ p, env.unlinkFails p = false) → (executeCode code lang env).fs = [])
    ∧ (∀ f : String → Bool,
        (executeCode code lang { env with unlinkFails := f }).result
          = (executeCode code lang env).result) := by
  constructor
  · intro h
    unfold executeCode
    split_ifs with h1 h2 h3 h4
    · exact aux_runScript_fs _ _ code env h
    · exact aux_runScript_fs _ _ code env h
    · exact aux_execJava_fs code env h
    · exact aux_execCpp_fs code env h
    · rfl
  · intro f
    unfold executeCode
    split_ifs with h1 h2 h3 h4
    · exact aux_runScript_indep _ _ code env f
    · exact aux_runScript_indep _ _ code env f
    · exact aux_execJava_indep code env f
    · exact aux_execCpp_indep code env f
    · rfl

/-- C1 witness: on a concrete run-failure (timeout) invocation whose
deletions succeed the directory ends empty, and making every deletion
fail leaves the returned result unchanged. -/
theorem executeCode_cleanup_unconditional_witness :
    ((executeCode "while(true);" "javascript" envW1).fs = [])
    ∧ ((executeCode "while(true);" "javascript"
          { envW1 with unlinkFails := fun _ => true }).result
        = (executeCode "while(true);" "javascript" envW1).result) :=
  ⟨(executeCode_cleanup_unconditional "while(true);" "javascript" envW1).1 (fun _ => rfl),
   (executeCode_cleanup_unconditional "while(true);" "javascript" envW1).2 (fun _ => true)⟩

lemma aux_dispatch_js (code : String) (env : Env) :
    executeCode code "javascript" env = runScript "node " ".js" code env := rfl

lemma aux_dispatch_py (code : String) (env : Env) :
    executeCode code "python" env = runScript "python " ".py" code env := rfl

lemma aux_dispatch_java (code : String) (env : Env) :
    executeCode code "java" env = execJava code env := rfl

lemma aux_dispatch_cpp (code : String) (env : Env) :
    executeCode code "cpp" env = execCpp code env := rfl

/-- C6: a java request whose source has no public-class match fails
immediately with the dedicated message and zero executionTime, writing
no file, spawning no process, attempting no deletion; when the match
exists, the extracted identifier, never the random execution id, names
both the source file and the class artifact (the whole java branch is
invariant under the execution id). -/
theorem executeCode_java_public_class (code : String) (env : Env) :
    (javaClassName code = none →
      executeCode code "java" env =
        { result := { success := false, output := none,
                      error := some "Could not find a public class in your Java code",
                      executionTime := 0 },
          writes := [], execs := [], unlinks := [], fs := [] })
    ∧ (∀ cn a b, javaClassName code = some cn → env.writeFails = none →
        env.compile = .ok a b →
        (executeCode code "java" env).writes = [(pjoin (cn ++ ".java"), code)]
        ∧ (executeCode code "java" env).unlinks
            = [pjoin (cn ++ ".java"), pjoin (cn ++ ".class")]
        ∧ (executeCode code "java" env).execs
            = ["javac -d " ++ executionDir ++ " " ++ pjoin (cn ++ ".java"),
               "java -cp " ++ executionDir ++ " " ++ cn])
    ∧ (∀ i, executeCode code "java" { env with executionId := i }
          = executeCode code "java" env) := by
  refine ⟨?_, ?_, ?_⟩
  · intro h
    rw [aux_dispatch_java]
    simp [execJava, h]
  · intro cn a b hcn hw hc
    rw [aux_dispatch_java]
    simp [execJava, hcn, hw, hc]
  · intro i
    rw [aux_dispatch_java, aux_dispatch_java]
    unfold execJava
    cases hcn : javaClassName code with
    | none => rfl
    | some cn =>
      cases hw : env.writeFails with
      | some m => simp [hw]
      | none =>
        cases hc : env.compile with
        | err k sg m so se => simp [hw, hc]
        | ok so se => simp [hw, hc]

/-- C6 witness: a concrete classless source fails with the dedicated
message and an empty trace, and a concrete well-formed source is
materialized under its class name. -/
theorem executeCode_java_public_class_witness :
    (executeCode "class Hidden \x7b\x7d" "java" envW6 =
      { result := { success := false, output := none,
                    error := some "Could not find a public class in your Java code",
                    executionTime := 0 },
        writes := [], execs := [], unlinks := [], fs := [] })
    ∧ ((executeCode "public class Main \x7b\x7d" "java" envW6).writes
        = [(pjoin ("Main" ++ ".java"), "public class Main \x7b\x7d")]) :=
  ⟨(executeCode_java_public_class "class Hidden \x7b\x7d" envW6).1 (by decide),
   ((executeCode_java_public_class "public class Main \x7b\x7d" envW6).2.1 "Main" "" ""
      (by decide) rfl rfl).1⟩

/-- C5: when the compile step of a java or cpp request fails (non-zero
exit or timeout kill alike), the returned result is a failure carrying
stderr (or the process error message when stderr is empty) with zero
executionTime, the only deletion attempted is the source artifact, and
the only command ever spawned is the compile command, so the run phase
is never attempted. -/
theorem executeCode_compile_failure (code : String) (env : Env)
    (hw : env.writeFails = none)
    (k : Bool) (sg m so se : String) (hc : env.compile = .err k sg m so se) :
    (∀ cn, javaClassName code = some cn →
      (executeCode code "java" env).result
          = { success := false, output := none, error := some (jsOr se m),
              executionTime := 0 }
        ∧ (executeCode code "java" env).unlinks = [pjoin (cn ++ ".java")]
        ∧ (executeCode code "java" env).execs
            = ["javac -d " ++ executionDir ++ " " ++ pjoin (cn ++ ".java")])
    ∧ ((executeCode code "cpp" env).result
          = { success := false, output := none, error := some (jsOr se m),
              executionTime := 0 }
        ∧ (executeCode code "cpp" env).unlinks = [pjoin (env.executionId ++ ".cpp")]
        ∧ (executeCode code "cpp" env).execs
            = ["g++ " ++ pjoin (env.executionId ++ ".cpp") ++ " -o "
                ++ pjoin env.executionId]) := by
  constructor
  · intro cn hcn
    rw [aux_dispatch_java]
    simp [execJava, hcn, hw, hc]
  · rw [aux_dispatch_cpp]
    simp [execCpp, hw, hc]

/-- C5 witness: a concrete failing javac run surfaces its stderr with
zero executionTime and spawns nothing after the compile command. -/
theorem executeCode_compile_failure_witness :
    (executeCode "public class Main \x7b broken \x7d" "java" envW5).result
        = { success := false, output := none,
            error := some (jsOr "Main.java:1: error: cannot find symbol" "exit 1"),
            executionTime := 0 }
      ∧ (executeCode "public class Main \x7b broken \x7d" "java" envW5).unlinks
        = [pjoin ("Main" ++ ".java")]
      ∧ (executeCode "public class Main \x7b broken \x7d" "java" envW5).execs
        = ["javac -d " ++ executionDir ++ " " ++ pjoin ("Main" ++ ".java")] :=
  (executeCode_compile_failure "public class Main \x7b broken \x7d" envW5 rfl
      false "" "exit 1" "" "Main.java:1: error: cannot find symbol" rfl).1
    "Main" (by decide)

/-- C3 counterexample: a compile-phase process killed by the deadline
(killed flag set, signal SIGTERM) does not produce the dedicated
timed-out message; the compile branch reports captured stderr instead,
so the claim fails for the compile phase. -/
theorem executeCode_timeout_message_counterexample :
    envCK.compile = .err true "SIGTERM" "Command failed" "" "javac diagnostics"
    ∧ (executeCode codeA "java" envCK).result.error = some "javac diagnostics"
    ∧ (executeCode codeA "java" envCK).result.error ≠ some "Execution timed out" := by
  refine ⟨rfl, ?_, ?_⟩ <;> decide

lemma aux_runPhase_error (k : Bool) (sg m so se : String) (t : Nat) :
    (runPhaseResult (.err k sg m so se) t).error =
      some (if k && (sg == "SIGTERM") then "Execution timed out" else jsOr se m) := by
  by_cases h : (k && (sg == "SIGTERM")) = true
  · simp [runPhaseResult, h]
  · simp [runPhaseResult, h]

/-- C3 amended: only a run-phase process killed by the deadline (killed
with SIGTERM) yields the dedicated message Execution timed out, and any
other run-phase error yields captured stderr or the process error
message; a compile-phase kill is reported like any compile failure,
as captured stderr or the process error message, never as the
timed-out message. -/
theorem executeCode_timeout_classification (code : String) (env : Env)
    (hw : env.writeFails = none) :
    (∀ k sg m so se, env.run = .err k sg m so se →
      ((executeCode code "javascript" env).result.error
          = some (if k && (sg == "SIGTERM") then "Execution timed out" else jsOr se m)
        ∧ (executeCode code "python" env).result.error
          = some (if k && (sg == "SIGTERM") then "Execution timed out" else jsOr se m)
        ∧ (∀ a b cn, env.compile = .ok a b → javaClassName code = some cn →
            (executeCode code "java" env).result.error
              = some (if k && (sg == "SIGTERM") then "Execution timed out" else jsOr se m))
        ∧ (∀ a b, env.compile = .ok a b →
            (executeCode code "cpp" env).result.error
              = some (if k && (sg == "SIGTERM") then "Execution timed out" else jsOr se m))))
    ∧ (∀ k sg m so se, env.compile = .err k sg m so se →
        ((∀ cn, javaClassName code = some cn →
            (executeCode code "java" env).result.error = some (jsOr se m))
          ∧ (executeCode code "cpp" env).result.error = some (jsOr se m))) := by
  constructor
  · intro k sg m so se hr
    refine ⟨?_, ?_, ?_, ?_⟩
    · rw [aux_dispatch_js]
      simp [runScript, hw, hr, aux_runPhase_error]
    · rw [aux_dispatch_py]
      simp [runScript, hw, hr, aux_runPhase_error]
    · intro a b cn hcmp hcn
      rw [aux_dispatch_java]
      simp [execJava, hcn, hw, hcmp, hr, aux_runPhase_error]
    · intro a b hcmp
      rw [aux_dispatch_cpp]
      simp [execCpp, hw, hcmp, hr, aux_runPhase_error]
  · intro k sg m so se hcmp
    constructor
    · intro cn hcn
      rw [aux_dispatch_java]
      simp [execJava, hcn, hw, hcmp]
    · rw [aux_dispatch_cpp]
      simp [execCpp, hw, hcmp]

/-- C3 witness: a concrete run-phase SIGTERM kill is reported as the
dedicated timed-out message. -/
theorem executeCode_timeout_classification_witness :
    (executeCode "while(true);" "javascript" envRT).result.error
      = some "Execution timed out" := by
  have h :=
    ((executeCode_timeout_classification "while(true);" envRT rfl).1
      true "SIGTERM" "killed" "" "" rfl).1
  exact h.trans (by decide)

/-- C4 counterexample: a successful java execution whose compile phase
took 1000 ms and whose run phase took 10 ms reports 1013 ms, not the
10 ms of the run phase, so the reported executionTime does not measure
the run phase only. -/
theorem executeCode_run_time_only_counterexample :
    (executeCode codeA "java" envT).result.success = true
    ∧ envT.tRun = 10
    ∧ (executeCode codeA "java" envT).result.executionTime = 1013
    ∧ (executeCode codeA "java" envT).result.executionTime ≠ envT.tRun := by
  refine ⟨?_, rfl, ?_, ?_⟩ <;> decide

/-- C4 amended: for a successful java or cpp execution the reported
executionTime is the wall-clock time of the whole invocation, the
materialization and compile phases included, because the timer opens at
the very start of executeCode. -/
theorem executeCode_time_includes_compile (code : String) (env : Env)
    (hw : env.writeFails = none) (a b o e : String)
    (hc : env.compile = .ok a b) (hr : env.run = .ok o e) :
    (∀ cn, javaClassName code = some cn →
      (executeCode code "java" env).result.executionTime
        = env.tMaterialize + env.tCompile + env.tRun)
    ∧ (executeCode code "cpp" env).result.executionTime
        = env.tMaterialize + env.tCompile + env.tRun := by
  constructor
  · intro cn hcn
    rw [aux_dispatch_java]
    simp [execJava, hcn, hw, hc, hr, runPhaseResult]
  · rw [aux_dispatch_cpp]
    simp [execCpp, hw, hc, hr, runPhaseResult]

/-- C4 witness: the amended time equation at the concrete
counterexample environment: 3 + 1000 + 10 ms. -/
theorem executeCode_time_includes_compile_witness :
    (executeCode codeA "java" envT).result.executionTime
      = envT.tMaterialize + envT.tCompile + envT.tRun :=
  (executeCode_time_includes_compile codeA envT rfl "" "" "out" "" rfl rfl).1
    "A" (by decide)

lemma aux_runCase_test (code lang : String) (env : Env) (t : TestCase) :
    (runCase code lang env t).test = t := by
  cases hh : env.harnessThrow with
  | some m => simp [runCase, hh]
  | none =>
    cases hr : rewriteFor lang code t.input with
    | none => simp [runCase, hh, hr]
    | some mc =>
      by_cases hs : (executeCode mc lang env).result.success = true
      · simp [runCase, caseResult, hh, hr, hs]
      · simp [runCase, caseResult, hh, hr, hs]

lemma aux_runTestCasesAux_map_test (code lang : String) (envOf : Nat → Env) :
    ∀ (i : Nat) (ts : List TestCase),
      (runTestCasesAux code lang envOf i ts).map TCResult.test = ts := by
  intro i ts
  induction ts generalizing i with
  | nil => rfl
  | cons t ts ih => simp [runTestCasesAux, aux_runCase_test, ih]

/-- C8: runTestCases returns one result per input case, in input order,
each carrying its original test object, for every environment sequence,
including those in which individual cases fail, are rewritten as
unsupported, or raise an exception inside the loop body: no case ever
aborts or skips the processing of the rest. -/
theorem runTestCases_one_result_per_case (code lang : String)
    (tcs : List TestCase) (envOf : Nat → Env) :
    (runTestCases code lang tcs envOf).map TCResult.test = tcs :=
  aux_runTestCasesAux_map_test code lang envOf 0 tcs

lemma aux_runCase_passed (code lang : String) (env : Env) (t : TestCase) :
    (runCase code lang env t).testPassed =
      if (runCase code lang env t).success = true then
        some (jsTrim ((runCase code lang env t).output.getD "")
          == jsTrim (jsString (runCase code lang env t).test.output))
      else none := by
  cases hh : env.harnessThrow with
  | some m => simp [runCase, hh]
  | none =>
    cases hr : rewriteFor lang code t.input with
    | none => simp [runCase, hh, hr]
    | some mc =>
      by_cases hs : (executeCode mc lang env).result.success = true
      · simp [runCase, caseResult, hh, hr, hs]
      · simp [runCase, caseResult, hh, hr, hs]

lemma aux_runTestCasesAux_mem (code lang : String) (envOf : Nat → Env) :
    ∀ (i : Nat) (ts : List TestCase) (r : TCResult),
      r ∈ runTestCasesAux code lang envOf i ts →
      ∃ j t, r = runCase code lang (envOf j) t := by
  intro i ts
  induction ts generalizing i with
  | nil => intro r hr; simp [runTestCasesAux] at hr
  | cons t ts ih =>
    intro r hr
    simp only [runTestCasesAux, List.mem_cons] at hr
    cases hr with
    | inl h => exact ⟨i, t, h⟩
    | inr h => exact ih (i + 1) r h

/-- C9: in every result of runTestCases, testPassed is set exactly when
the execution succeeded, and then equals the string comparison of the
whitespace-trimmed actual output against the whitespace-trimmed string
form of the expected output; on a failed execution it is left unset. -/
theorem runTestCases_trimmed_comparison (code lang : String)
    (tcs : List TestCase) (envOf : Nat → Env) (r : TCResult)
    (hr : r ∈ runTestCases code lang tcs envOf) :
    r.testPassed =
      if r.success = true then
        some (jsTrim (r.output.getD "") == jsTrim (jsString r.test.output))
      else none := by
  obtain ⟨j, t, rfl⟩ := aux_runTestCasesAux_mem code lang envOf 0 tcs r hr
  exact aux_runCase_passed code lang (envOf j) t

/-- C9 witness: on a concrete python case producing 42 with a trailing
newline against the numeric expected value 42, the comparison formula
holds and evaluates to a pass. -/
theorem runTestCases_trimmed_comparison_witness :
    ((runCase "def solution(n):\n  return 42" "python" envW9 tcW9).testPassed =
      if (runCase "def solution(n):\n  return 42" "python" envW9 tcW9).success = true then
        some (jsTrim ((runCase "def solution(n):\n  return 42" "python" envW9 tcW9).output.getD "")
          == jsTrim (jsString (runCase "def solution(n):\n  return 42" "python" envW9 tcW9).test.output))
      else none)
    ∧ (runCase "def solution(n):\n  return 42" "python" envW9 tcW9).testPassed = some true := by
  constructor
  · exact runTestCases_trimmed_comparison "def solution(n):\n  return 42" "python"
      [tcW9] (fun _ => envW9) _ (by decide)
  · decide

/-- C10 counterexample: a java source whose main body contains nested
braces is not left unchanged: the textual pattern still matches up to
the first closing brace, so the rewrite fires and mangles the program
(the replacement covers only part of the main body). -/
theorem entry_rewrite_nested_braces_counterexample :
    rewriteFor "java" nestedMainJava (.num 1) ≠ some nestedMainJava := by
  decide

/-- C10 amended: when the textual entry-point pattern of the harness
finds no match in a java or cpp source (for instance a program with no
main at all), the rewrite returns the source text unchanged and the
harness silently executes the unmodified program for that case,
reporting no rewrite error; but a main body with nested braces does
match (up to its first closing brace) and is rewritten. -/
theorem entry_rewrite_no_match_unchanged (code : String) (inp : JsVal)
    (env : Env) (t : TestCase)
    (hj : splitEntry javaEntryHead code.data = none)
    (hcpp : splitEntry cppEntryHead code.data = none)
    (hh : env.harnessThrow = none) :
    javaRewrite code (jsonStringify inp) = code
    ∧ cppRewrite code (jsonStringify inp) = code
    ∧ runCase code "java" env t = caseResult (executeCode code "java" env).result t
    ∧ runCase code "cpp" env t = caseResult (executeCode code "cpp" env).result t := by
  have hjr : ∀ arg : String, javaRewrite code arg = code := by
    intro arg
    simp [javaRewrite, hj]
  have hcr : ∀ arg : String, cppRewrite code arg = code := by
    intro arg
    simp [cppRewrite, hcpp]
  refine ⟨hjr _, hcr _, ?_, ?_⟩
  · simp [runCase, hh, rewriteFor, hjr]
  · simp [runCase, hh, rewriteFor, hcr]

/-- C10 witness: a concrete java source without a main block passes
through both rewrites unchanged and its case result is exactly the
orchestrator result of the unmodified source. -/
theorem entry_rewrite_no_match_unchanged_witness :
    javaRewrite noMainJava (jsonStringify (.num 5)) = noMainJava
    ∧ cppRewrite noMainJava (jsonStringify (.num 5)) = noMainJava
    ∧ runCase noMainJava "java" envW10 { input := .num 5, output := .num 1 }
        = caseResult (executeCode noMainJava "java" envW10).result
            { input := .num 5, output := .num 1 } :=
  ⟨(entry_rewrite_no_match_unchanged noMainJava (.num 5) envW10
      { input := .num 5, output := .num 1 } (by decide) (by decide) rfl).1,
   (entry_rewrite_no_match_unchanged noMainJava (.num 5) envW10
      { input := .num 5, output := .num 1 } (by decide) (by decide) rfl).2.1,
   (entry_rewrite_no_match_unchanged noMainJava (.num 5) envW10
      { input := .num 5, output := .num 1 } (by decide) (by decide) rfl).2.2.1⟩
